import Mathlib

/-!
Verification of the view-derivation logic of the Kickerturnier live-display
front-end (`src/App.tsx`). The TypeScript data model and the pure
view-derivation functions are embedded as executable Lean definitions; the
stateful fetch / export / position-tracking effects are embedded as explicit
state-passing step functions over small event types. JS strings are modelled
as Lean `String` (`toUpperCase` as an ASCII character map, `includes` as a
substring test), JS numbers holding scores, indices and counts as `Nat`, the
signed goal difference as `Int`, and nullable or optional values as `Option`.
-/

namespace Kicker

/-- ASCII-wise uppercase of a string, modelling JS `String.prototype.toUpperCase`
on the ASCII round names this application matches against. -/
def jsToUpper (s : String) : String := ⟨s.data.map Char.toUpper⟩

/-- Does the second character list start with the first one? -/
def leadsWith : List Char → List Char → Bool
  | [], _ => true
  | _ :: _, [] => false
  | p :: ps, c :: cs => p == c && leadsWith ps cs

/-- Does the character list contain `pat` as a contiguous run? -/
def containsAux (pat : List Char) : List Char → Bool
  | [] => pat.isEmpty
  | c :: cs => leadsWith pat (c :: cs) || containsAux pat cs

/-- Substring test, modelling JS `String.prototype.includes`. -/
def strContains (s pat : String) : Bool := containsAux pat.data s.data

/-- Cumulative statistics of a team, from the `TeamStats` interface. -/
structure TeamStats where
  place : Nat
  «matches» : Nat
  won : Nat
  lost : Nat
  draws : Nat
  goals : Nat
  goals_in : Nat
  goal_diff : Int
  points : Nat
  deriving DecidableEq, Repr

/-- One ranked row of a standings table, from the `Standing` interface. -/
structure Standing where
  _id : String
  name : String
  stats : TeamStats
  deriving DecidableEq, Repr

/-- A physical table a match is played on, from the `Table` interface. -/
structure Table where
  _id : String
  name : String
  deriving DecidableEq, Repr

/-- One side of a match, from the `MatchTeam` interface. -/
structure MatchTeam where
  _id : Option String
  name : String
  deriving DecidableEq, Repr

/-- A match, from the `Match` interface. The source reads `team1` and `team2`
through optional chaining, so both sides are modelled as `Option`;
`tables` is `Table[] | null` in the source. -/
structure Match where
  _id : String
  team1 : Option MatchTeam
  team2 : Option MatchTeam
  result : Nat × Nat
  valid : Bool
  timeEnd : Option Nat
  tables : Option (List Table)
  deriving DecidableEq, Repr

/-- A round of matches, from the `Round` interface. -/
structure Round where
  _id : String
  name : String
  «matches» : List Match
  deriving DecidableEq, Repr

/-- An elimination bracket, from the `EliminationGroup` interface. -/
structure EliminationGroup where
  _id : String
  name : String
  size : Nat
  finished : Bool
  thirdPlace : Bool
  double : Bool
  standings : List Standing
  levels : List Round
  leftLevels : List Round
  third : Option Round
  deriving DecidableEq, Repr

/-- A qualifying group, from the `Group` interface (`rounds` and `levels`
are both optional there). -/
structure Group where
  standings : List Standing
  rounds : Option (List Round)
  levels : Option (List Round)
  deriving DecidableEq, Repr

/-- A full tournament snapshot, from the `TournamentData` interface. -/
structure TournamentData where
  name : String
  eliminations : List EliminationGroup
  qualifying : List Group
  deriving DecidableEq, Repr

/-- Round display name, from `getRoundName` (`App.tsx` lines 419-428):
uppercase the raw name, then test the source's patterns in source order,
falling through to the raw name. -/
def getRoundName (name : String) : String :=
  let upperName := jsToUpper name
  if strContains upperName "FINALS-1-1" || upperName == "FINALE" || upperName == "FINAL" then "Finale"
  else if strContains upperName "FINALS-1-2" || strContains upperName "SEMI" || strContains upperName "HALBFINALE" then "Halbfinale"
  else if strContains upperName "FINALS-1-4" || strContains upperName "QUARTER" || strContains upperName "VIERTELFINALE" then "Viertelfinale"
  else if strContains upperName "FINALS-1-8" || strContains upperName "ACHTELFINALE" then "Achtelfinale"
  else if strContains upperName "FINALS-1-16" then "Sechzehntelfinale"
  else if strContains upperName "THIRD" || strContains upperName "PLATZ 3" || strContains upperName "BRONZE" then "Platz 3"
  else name

/-- C1: `getRoundName` evaluated at the claim's inputs. "FINALS-1-1",
"semi-foo" and "randomname" behave as the claim states, but "FINALS-1-16"
yields "Finale", not the Round-of-32 label "Sechzehntelfinale": the pattern
"FINALS-1-1" is a substring of "FINALS-1-16" and is tested first, so the
source's dedicated "FINALS-1-16" branch is unreachable. -/
theorem getRoundName_eval :
    getRoundName "FINALS-1-1" = "Finale" ∧
    getRoundName "semi-foo" = "Halbfinale" ∧
    getRoundName "randomname" = "randomname" ∧
    getRoundName "FINALS-1-16" = "Finale" := by
  refine ⟨?_, ?_, ?_, ?_⟩ <;> rfl

/-- Medal CSS class, from `getMedalClass` (`App.tsx` lines 437-449). JS
falsiness of `teamName` (absent or empty string) and of `standings` (absent)
is modelled explicitly; `roundName?.includes(...)` is a case-sensitive
substring test. -/
def getMedalClass (teamName : Option String) (standings : Option (List Standing))
    (roundName : Option String) : String :=
  let isFinale := (match roundName with
    | some r => strContains r "FINALS-1-1"
    | none => false) || roundName == some "Finale"
  let isThirdPlace := (match roundName with
    | some r => strContains r "THIRD"
    | none => false) || roundName == some "Platz 3"
  if !isFinale && !isThirdPlace then ""
  else
    match teamName, standings with
    | some tn, some st =>
      if tn == "" then ""
      else
        match st.findIdx? (fun s => s.name == tn) with
        | some 0 => "medal-gold"
        | some 1 => "medal-silver"
        | some 2 => "medal-bronze"
        | some 3 => "medal-fourth"
        | _ => ""
    | _, _ => ""

/-- All-zero team statistics, for concrete test data. -/
def zeroStats : TeamStats := ⟨0, 0, 0, 0, 0, 0, 0, 0, 0⟩

/-- A standing with the given id, display name and upstream place. -/
def mkStanding (id nm : String) (pl : Nat) : Standing :=
  ⟨id, nm, { zeroStats with place := pl }⟩

/-- C4: `getMedalClass` evaluated at the claim's boundary. For a Semifinal
round name it returns no medal even for the team at index 0 of the standings,
as the claim states; but for round name "FINALS-1-16" — the Round-of-32 under
the application's naming convention, not the Final — the substring test
`includes("FINALS-1-1")` matches and the team at index 0 receives
"medal-gold", contradicting the claim and the source's own comment "Only
highlight in the Finale or Third Place match". -/
theorem getMedalClass_eval :
    getMedalClass (some "A") (some [mkStanding "a" "A" 1]) (some "Halbfinale") = "" ∧
    getMedalClass (some "A") (some [mkStanding "a" "A" 1]) (some "FINALS-1-2") = "" ∧
    getMedalClass (some "A") (some [mkStanding "a" "A" 1]) (some "FINALS-1-1") = "medal-gold" ∧
    getMedalClass (some "A") (some [mkStanding "a" "A" 1]) (some "FINALS-1-16") = "medal-gold" := by
  refine ⟨?_, ?_, ?_, ?_⟩ <;> rfl

/-- Truthiness of `x?.name` for an optional match team: JS treats an absent
team and an empty team name both as falsy. -/
def teamNameTruthy (t : Option MatchTeam) : Bool :=
  match t with
  | some mt => mt.name != ""
  | none => false

/-- Has the match a table assigned (`match.tables && match.tables.length > 0`)? -/
def hasTable (m : Match) : Bool :=
  match m.tables with
  | some ts => decide (ts.length > 0)
  | none => false

/-- The "upcoming" predicate of `getUpcomingMatches`: not completed and both
teams resolved (`!match.valid && match.team1?.name && match.team2?.name`). -/
def isUpcomingMatch (m : Match) : Bool :=
  !m.valid && teamNameTruthy m.team1 && teamNameTruthy m.team2

/-- The "current" predicate of `getCurrentMatches`: not completed, a table
assigned and both teams resolved. -/
def isCurrentMatch (m : Match) : Bool :=
  !m.valid && hasTable m && teamNameTruthy m.team1 && teamNameTruthy m.team2

/-- View of an elimination bracket as a `Group`, modelling the source's
widening in `[...(tournamentData.qualifying || []), ...(tournamentData.eliminations || [])]`:
an elimination group has no `rounds` field and its `levels` are the
winner-side rounds (the loser-side `leftLevels` and `third` are not visited). -/
def EliminationGroup.toGroup (e : EliminationGroup) : Group :=
  { standings := e.standings, rounds := none, levels := some e.levels }

/-- The combined group list both match scanners iterate over. -/
def groupsOf (td : TournamentData) : List Group :=
  td.qualifying ++ td.eliminations.map EliminationGroup.toGroup

/-- Per group, `[...(group.rounds || []), ...(group.levels || [])]`. -/
def roundsOrLevels (g : Group) : List Round :=
  g.rounds.getD [] ++ g.levels.getD []

/-- Every match of the snapshot in encounter order: the order in which the
nested `forEach` loops of the source visit them. -/
def flattenedMatches (td : TournamentData) : List Match :=
  (groupsOf td).flatMap fun g => (roundsOrLevels g).flatMap fun r => r.«matches»

/-- The un-capped collection `allMatches` built inside `getUpcomingMatches`
(`App.tsx` lines 368-384). -/
def allUpcomingMatches (td : TournamentData) : List Match :=
  (groupsOf td).flatMap fun g =>
    (roundsOrLevels g).flatMap fun r => r.«matches».filter isUpcomingMatch

/-- `getUpcomingMatches`: the collected upcoming matches capped at 8
(`allMatches.slice(0, 8)`). -/
def getUpcomingMatches (td : TournamentData) : List Match :=
  (allUpcomingMatches td).take 8

/-- `getCurrentMatches` (`App.tsx` lines 389-408). -/
def getCurrentMatches (td : TournamentData) : List Match :=
  (groupsOf td).flatMap fun g =>
    (roundsOrLevels g).flatMap fun r => r.«matches».filter isCurrentMatch

/-- The rendered "Nächste Spiele" list:
`upcomingMatches.filter(m => !m.tables || m.tables.length === 0)`
(`App.tsx` lines 797-800). -/
def renderedUpcomingMatches (td : TournamentData) : List Match :=
  (getUpcomingMatches td).filter fun m =>
    match m.tables with
    | none => true
    | some ts => ts.length == 0

/-- Filtering inside a `flatMap` is filtering its result. -/
theorem flatMap_filter {α β : Type} (l : List α) (f : α → List β) (p : β → Bool) :
    (l.flatMap fun x => (f x).filter p) = (l.flatMap f).filter p := by
  induction l with
  | nil => rfl
  | cons a t ih => simp [List.flatMap_cons, List.filter_append, ih]

/-- The un-capped upcoming collection is the upcoming-filter of the flattened
match list. -/
theorem allUpcomingMatches_eq (td : TournamentData) :
    allUpcomingMatches td = (flattenedMatches td).filter isUpcomingMatch := by
  unfold allUpcomingMatches flattenedMatches
  simp only [flatMap_filter]

/-- The current-match list is the current-filter of the flattened match list. -/
theorem getCurrentMatches_eq (td : TournamentData) :
    getCurrentMatches td = (flattenedMatches td).filter isCurrentMatch := by
  unfold getCurrentMatches flattenedMatches
  simp only [flatMap_filter]

/-- C5: the rendered upcoming-matches list has at most 8 entries, every entry
satisfies the upcoming predicate, no entry satisfies the current predicate
(current and filtered-upcoming are disjoint), and the list is a sublist of
the flattened matches of all groups and brackets, i.e. in encounter order. -/
theorem renderedUpcoming_spec (td : TournamentData) :
    (renderedUpcomingMatches td).length ≤ 8 ∧
    (∀ m ∈ renderedUpcomingMatches td, isUpcomingMatch m = true) ∧
    (∀ m ∈ renderedUpcomingMatches td, isCurrentMatch m = false) ∧
    (renderedUpcomingMatches td).Sublist (flattenedMatches td) := by
  refine ⟨?_, ?_, ?_, ?_⟩
  · calc (renderedUpcomingMatches td).length
        ≤ (getUpcomingMatches td).length := List.length_filter_le _ _
      _ ≤ 8 := by
          simp [getUpcomingMatches, List.length_take_le]
  · intro m hm
    have hm8 : m ∈ getUpcomingMatches td := (List.mem_filter.1 hm).1
    have hall : m ∈ allUpcomingMatches td := List.mem_of_mem_take hm8
    rw [allUpcomingMatches_eq] at hall
    exact (List.mem_filter.1 hall).2
  · intro m hm
    have hfilt := (List.mem_filter.1 hm).2
    have hnt : hasTable m = false := by
      unfold hasTable
      cases h : m.tables with
      | none => rfl
      | some ts =>
        rw [h] at hfilt
        simp only [beq_iff_eq] at hfilt
        simp [hfilt]
    simp [isCurrentMatch, hnt]
  · have h1 : (renderedUpcomingMatches td).Sublist (getUpcomingMatches td) :=
      List.filter_sublist _
    have h2 : (getUpcomingMatches td).Sublist (allUpcomingMatches td) :=
      List.take_sublist _ _
    have h3 : (allUpcomingMatches td).Sublist (flattenedMatches td) := by
      rw [allUpcomingMatches_eq]
      exact List.filter_sublist _
    exact (h1.trans h2).trans h3

/-- C10: every match selected as "current" also belongs to the un-capped
upcoming collection: the current predicate implies the upcoming predicate,
and both lists filter the same flattened match list. -/
theorem current_subset_allUpcoming (td : TournamentData) (m : Match)
    (h : m ∈ getCurrentMatches td) : m ∈ allUpcomingMatches td := by
  rw [getCurrentMatches_eq] at h
  rw [allUpcomingMatches_eq]
  rcases List.mem_filter.1 h with ⟨hm, hc⟩
  refine List.mem_filter.2 ⟨hm, ?_⟩
  simp only [isCurrentMatch, Bool.and_eq_true] at hc
  simp only [isUpcomingMatch, Bool.and_eq_true]
  exact ⟨⟨hc.1.1.1, hc.1.2⟩, hc.2⟩

/-- A concrete table for test data. -/
def tableOne : Table := ⟨"tb1", "1"⟩

/-- A concrete in-progress match: not completed, table assigned, both teams
resolved. -/
def matchInProgress : Match :=
  ⟨"m1", some ⟨some "t1", "Alpha"⟩, some ⟨some "t2", "Beta"⟩, (0, 0), false, none, some [tableOne]⟩

/-- A concrete waiting match: not completed, no table, both teams resolved. -/
def matchWaiting : Match :=
  ⟨"m2", some ⟨some "t3", "Gamma"⟩, some ⟨some "t4", "Delta"⟩, (0, 0), false, none, none⟩

/-- A qualifying group holding the two concrete matches in one round. -/
def sampleGroup : Group :=
  ⟨[mkStanding "t1" "Alpha" 1, mkStanding "t2" "Beta" 2],
   some [⟨"r1", "Runde 1", [matchInProgress, matchWaiting]⟩], none⟩

/-- A concrete snapshot with one qualifying group and no eliminations. -/
def sampleTd : TournamentData := ⟨"Turnier", [], [sampleGroup]⟩

/-- C10 witness: the concrete in-progress match is selected as current and is
indeed in the un-capped upcoming collection. -/
theorem current_subset_allUpcoming_witness :
    matchInProgress ∈ allUpcomingMatches sampleTd :=
  current_subset_allUpcoming sampleTd matchInProgress (by decide)

/-- Loser-bracket third-place-round test, from `App.tsx` line 886:
`round.name.toUpperCase().includes('PLATZ') || round.name.toUpperCase().includes('THIRD')`. -/
def isPlatz3Round (name : String) : Bool :=
  strContains (jsToUpper name) "PLATZ" || strContains (jsToUpper name) "THIRD"

/-- Bronze tag of team1 in a loser-bracket round (`App.tsx` line 893):
`isPlatz3Round && match.valid && match.result[0] < match.result[1]`. -/
def team1IsBronze (roundName : String) (m : Match) : Bool :=
  isPlatz3Round roundName && m.valid && decide (m.result.1 < m.result.2)

/-- Bronze tag of team2 in a loser-bracket round (`App.tsx` line 894). -/
def team2IsBronze (roundName : String) (m : Match) : Bool :=
  isPlatz3Round roundName && m.valid && decide (m.result.2 < m.result.1)

/-- C6: in a loser-bracket round whose name contains "platz" or "third"
case-insensitively, for every completed match with result (s1, s2) the bronze
tags invert the result: team1 is tagged bronze exactly when s1 < s2 and team2
exactly when s2 < s1 — the loser, not the winner, receives bronze. -/
theorem bronze_inversion (roundName : String) (m : Match)
    (hp : isPlatz3Round roundName = true) (hv : m.valid = true) :
    team1IsBronze roundName m = decide (m.result.1 < m.result.2) ∧
    team2IsBronze roundName m = decide (m.result.2 < m.result.1) := by
  simp [team1IsBronze, team2IsBronze, hp, hv]

/-- A concrete completed third-place match with result (3, 1). -/
def platzMatch : Match :=
  ⟨"m3", some ⟨some "t5", "Epsilon"⟩, some ⟨some "t6", "Zeta"⟩, (3, 1), true, none, none⟩

/-- C6 witness: in a round named "Platz 3" with result (3, 1), the winning
team1 is not tagged bronze and the losing team2 is. -/
theorem bronze_inversion_witness :
    team1IsBronze "Platz 3" platzMatch = false ∧
    team2IsBronze "Platz 3" platzMatch = true := by
  have h := bronze_inversion "Platz 3" platzMatch (by decide) (by decide)
  exact ⟨by rw [h.1]; rfl, by rw [h.2]; rfl⟩

/-- One movement classification, the `'up' | 'down' | 'none'` union of the
position tracker. -/
inductive PosChange where
  | up
  | down
  | none
  deriving DecidableEq, Repr

/-- The tracker's persistent React state, the two maps as association lists
in insertion order (ids are unique within a group's standings). -/
structure TrackerState where
  prevPositions : List (String × Nat)
  positionChanges : List (String × PosChange)
  deriving DecidableEq, Repr

/-- `prevPositions.get(id)` on the association list. -/
def lookupPos (l : List (String × Nat)) (id : String) : Option Nat :=
  (l.find? fun p => p.1 == id).map Prod.snd

/-- The movement classification of a standings update against the previously
recorded indices (`App.tsx` lines 192-207): a team with a recorded index is
classified by comparing the indices, a team without one is recorded as
`none`. -/
def computeChanges (prev : List (String × Nat)) (standings : List Standing) :
    List (String × PosChange) :=
  standings.enum.map fun p =>
    match lookupPos prev p.2._id with
    | some old =>
        (p.2._id, if p.1 < old then PosChange.up
          else if p.1 > old then PosChange.down else PosChange.none)
    | Option.none => (p.2._id, PosChange.none)

/-- The new baseline `newPositions`: each team id mapped to its index. -/
def newPositionsOf (standings : List Standing) : List (String × Nat) :=
  standings.enum.map fun p => (p.2._id, p.1)

/-- The effect of one standings update on the tracker state
(`setPositionChanges(changes); setPrevPositions(newPositions)`). -/
def trackerUpdate (st : TrackerState) (standings : List Standing) : TrackerState :=
  { prevPositions := newPositionsOf standings,
    positionChanges := computeChanges st.prevPositions standings }

/-- The decay timeout's effect, `setPositionChanges(new Map())`, scheduled
`positionDecayMs` after each update. -/
def trackerDecay (st : TrackerState) : TrackerState :=
  { st with positionChanges := [] }

/-- The decay delay in milliseconds, from `setTimeout(..., 2500)`. -/
def positionDecayMs : Nat := 2500

/-- The animation class attached to a standings row (`App.tsx` line 750):
only `up` and `down` yield a visible movement class. -/
def animClassOf (pc : Option PosChange) : String :=
  match pc with
  | some PosChange.up => "slide-up"
  | some PosChange.down => "slide-down"
  | _ => ""

/-- Concrete team A for the tracker example. -/
def stA : Standing := mkStanding "idA" "A" 1

/-- Concrete team B for the tracker example. -/
def stB : Standing := mkStanding "idB" "B" 2

/-- Concrete team C for the tracker example. -/
def stC : Standing := mkStanding "idC" "C" 3

/-- C8: the position tracker classifies the team at index `i` by comparing
`i` to its previously recorded index (smaller is `up`, larger is `down`,
equal is `none`, no record is `none`, which renders as no movement); the new
indices are persisted as the next baseline; the decay scheduled 2500 ms after
the update clears all change tags; and on standings [A,B,C] followed by
[B,A,C] the tracker reports B up, A down and C none. -/
theorem position_tracker_spec (st : TrackerState) (standings : List Standing)
    (i : Nat) (team : Standing) (h : standings[i]? = some team) :
    (computeChanges st.prevPositions standings)[i]? = some (team._id,
      match lookupPos st.prevPositions team._id with
      | some old => if i < old then PosChange.up
          else if i > old then PosChange.down else PosChange.none
      | Option.none => PosChange.none) ∧
    (trackerUpdate st standings).prevPositions = newPositionsOf standings ∧
    (newPositionsOf standings)[i]? = some (team._id, i) ∧
    (trackerDecay (trackerUpdate st standings)).positionChanges = [] ∧
    positionDecayMs = 2500 ∧
    animClassOf (some PosChange.none) = "" ∧
    computeChanges (newPositionsOf [stA, stB, stC]) [stB, stA, stC] =
      [("idB", PosChange.up), ("idA", PosChange.down), ("idC", PosChange.none)] := by
  refine ⟨?_, rfl, ?_, rfl, rfl, rfl, by decide⟩
  · simp [computeChanges, List.getElem?_map, List.getElem?_enum, h]
    cases lookupPos st.prevPositions team._id <;> rfl
  · simp [newPositionsOf, List.getElem?_map, List.getElem?_enum, h]

/-- C8 witness: the tracker's report for standings [A,B,C] followed by
[B,A,C]. -/
theorem position_tracker_spec_witness :
    computeChanges (newPositionsOf [stA, stB, stC]) [stB, stA, stC] =
      [("idB", PosChange.up), ("idA", PosChange.down), ("idC", PosChange.none)] :=
  (position_tracker_spec ⟨newPositionsOf [stA, stB, stC], []⟩ [stB, stA, stC] 0 stB
    rfl).2.2.2.2.2.2

/-- The fetch-relevant React state: the held snapshot, the error banner and
the loading flag. -/
structure AppFetchState where
  tournamentData : Option TournamentData
  error : Option String
  isLoading : Bool
  deriving Repr

/-- The success branch of `fetchTournamentData` (`App.tsx` lines 156-160,
165): `setTournamentData(data); setError(null)` and, in the `finally` block,
`setIsLoading(false)`. -/
def applyFetchSuccess (st : AppFetchState) (data : TournamentData) : AppFetchState :=
  { st with tournamentData := some data, error := Option.none, isLoading := false }

/-- The failure branch of `fetchTournamentData` (`App.tsx` lines 161-166),
taken on a network error or a non-success HTTP status:
`setError('Fehler beim Laden der Turnierdaten')` and, in the `finally` block,
`setIsLoading(false)`; the held snapshot is not written. -/
def applyFetchFailure (st : AppFetchState) : AppFetchState :=
  { st with error := some "Fehler beim Laden der Turnierdaten", isLoading := false }

/-- C9: a failed snapshot fetch leaves the previously held snapshot unchanged
and sets the user-visible error message; a successful fetch replaces the
snapshot wholesale with the fetched one and clears the error state. -/
theorem fetch_error_handling (st : AppFetchState) (data : TournamentData) :
    (applyFetchFailure st).tournamentData = st.tournamentData ∧
    (applyFetchFailure st).error = some "Fehler beim Laden der Turnierdaten" ∧
    (applyFetchSuccess st data).tournamentData = some data ∧
    (applyFetchSuccess st data).error = Option.none :=
  ⟨rfl, rfl, rfl, rfl⟩

/-- The selection-and-polling state relevant to stale responses: the selected
tournament id and the displayed snapshot, a snapshot represented by the
payload the per-tournament endpoint returned. -/
structure PollState where
  selectedTournamentId : String
  tournamentData : Option String
  error : Option String
  deriving DecidableEq, Repr

/-- An event of the selection/polling interleaving: selecting a tournament
(which also initiates a fetch for it), or the arrival of the response or the
failure of a fetch initiated while `forId` was selected. -/
inductive PollEv where
  | select (id : String)
  | response (forId : String) (payload : String)
  | failure (forId : String)
  deriving DecidableEq, Repr

/-- One interleaving step, modelled from `App.tsx`: `setSelectedTournamentId`
on select (line 550); on a response, the resolution of `fetchTournamentData`
runs `setTournamentData(data); setError(null)` (lines 156-160) with no check
that `forId` is still the selected tournament — the in-flight promise is not
cancelled by the effect cleanup (lines 175-182), which only clears the poll
interval; on a failure, `setError(...)` (line 162). -/
def pollStep (st : PollState) : PollEv → PollState
  | PollEv.select id => { st with selectedTournamentId := id }
  | PollEv.response _forId payload =>
      { st with tournamentData := some payload, error := Option.none }
  | PollEv.failure _forId =>
      { st with error := some "Fehler beim Laden der Turnierdaten" }

/-- Fold of `pollStep` over an event trace. -/
def pollRun (st : PollState) (tr : List PollEv) : PollState :=
  tr.foldl pollStep st

/-- The state before any selection. -/
def pollInit : PollState := ⟨"", Option.none, Option.none⟩

/-- The concrete trace of the claim: select X, then Y; Y's response arrives,
then X's stale response. -/
def staleTrace : List PollEv :=
  [PollEv.select "X", PollEv.select "Y",
   PollEv.response "Y" "snapshotY", PollEv.response "X" "snapshotX"]

/-- C2 counterexample: on the claim's trace the selection ends on Y but the
displayed snapshot ends as X's payload, not Y's — the stale response IS
applied after the switch, refuting the claim. -/
theorem stale_response_applied :
    (pollRun pollInit staleTrace).selectedTournamentId = "Y" ∧
    (pollRun pollInit staleTrace).tournamentData = some "snapshotX" ∧
    "snapshotX" ≠ "snapshotY" :=
  ⟨rfl, rfl, by decide⟩

/-- C2 amended: the fetch callback applies whichever response arrives, with
no staleness guard, so after any event trace the displayed snapshot is the
payload of the most recently arrived response (arrival-order last-write-wins),
regardless of which tournament is selected when it arrives. -/
theorem snapshot_is_last_arrival (st : PollState) (tr : List PollEv) :
    (pollRun st tr).tournamentData =
      tr.foldl (fun cur e =>
        match e with
        | PollEv.response _ p => some p
        | _ => cur) st.tournamentData := by
  induction tr generalizing st with
  | nil => rfl
  | cons e rest ih =>
    have h := ih (pollStep st e)
    cases e <;> simpa [pollRun, List.foldl_cons, pollStep] using h

/-- The export-relevant state: whether tournament data is present, the
`isExporting` single-flight flag and how many documents `pdf.save` has
produced. -/
structure ExportState where
  hasData : Bool
  isExporting : Bool
  docsSaved : Nat
  deriving DecidableEq, Repr

/-- An export-path event: a press of the export button, the completed run of
`exportToPDF` reaching `pdf.save`, or a failing run ending in its `finally`
block. -/
inductive ExportEv where
  | click
  | complete
  | fail
  deriving DecidableEq, Repr

/-- One step, modelled from `App.tsx`: the export button carries
`disabled={isExporting}` (line 573), so a press while an export is in flight
invokes nothing; an invoked `exportToPDF` returns early without data
(line 453) or sets `isExporting` (line 455); a completed run saves one
document (line 527) and its `finally` block clears the flag (line 532); a
failing run only clears the flag. -/
def exportStep (s : ExportState) : ExportEv → ExportState
  | ExportEv.click =>
      if s.isExporting then s
      else if !s.hasData then s
      else { s with isExporting := true }
  | ExportEv.complete =>
      if s.isExporting then { s with docsSaved := s.docsSaved + 1, isExporting := false }
      else s
  | ExportEv.fail =>
      if s.isExporting then { s with isExporting := false } else s

/-- Fold of `exportStep` over an event trace. -/
def exportRun (s : ExportState) (tr : List ExportEv) : ExportState :=
  tr.foldl exportStep s

/-- C3: a press of the export button while an export is in flight leaves the
state unchanged (no second export starts, no document is produced), and two
presses in rapid succession — the second arriving while the first export is
still in flight — followed by the first export's completion produce exactly
one document. -/
theorem export_single_flight (s : ExportState) (h : s.isExporting = true) :
    exportStep s ExportEv.click = s ∧
    (exportRun ⟨true, false, 0⟩
      [ExportEv.click, ExportEv.click, ExportEv.complete]).docsSaved = 1 := by
  constructor
  · simp [exportStep, h]
  · rfl

/-- C3 witness: the in-flight no-op and the double-press trace at concrete
states. -/
theorem export_single_flight_witness :
    exportStep ⟨true, true, 0⟩ ExportEv.click = ⟨true, true, 0⟩ ∧
    (exportRun ⟨true, false, 0⟩
      [ExportEv.click, ExportEv.click, ExportEv.complete]).docsSaved = 1 :=
  export_single_flight ⟨true, true, 0⟩ rfl

/-- The sort key of the overflow listing, `(t.stats?.place || 999)`: a
missing (zero) upstream place sorts as 999, i.e. last. -/
def sortPlaceKey (s : Standing) : Nat :=
  if s.stats.place == 0 then 999 else s.stats.place

/-- The ascending-by-qualifying-place order passed to `.sort`. -/
def placeLe (a b : Standing) : Prop := sortPlaceKey a ≤ sortPlaceKey b

instance : DecidableRel placeLe := fun _ _ => Nat.decLe _ _

instance : IsTotal Standing placeLe := ⟨fun _ _ => Nat.le_total _ _⟩

instance : IsTrans Standing placeLe := ⟨fun _ _ _ hab hbc => Nat.le_trans hab hbc⟩

/-- The qualifying teams absent from the elimination bracket's final
standings (`App.tsx` lines 955-958): the first qualifying group's standings
filtered by id against the bracket's standings ids. -/
def overflowTeams (elim : EliminationGroup) (td : TournamentData) : List Standing :=
  let koTeamIds := elim.standings.map fun t => t._id
  match td.qualifying with
  | [] => []
  | g :: _ => g.standings.filter fun t => !(koTeamIds.contains t._id)

/-- The overflow listing sorted ascending by qualifying place
(`.sort((a, b) => (a.stats?.place || 999) - (b.stats?.place || 999))`, a
stable JS sort embedded as a stable insertion sort). -/
def sortedOverflow (elim : EliminationGroup) (td : TournamentData) : List Standing :=
  List.insertionSort placeLe (overflowTeams elim td)

/-- The rendered continuation rows (`App.tsx` lines 1050-1054): each sorted
overflow team numbered `koParticipantCount + index + 1`, where
`koParticipantCount` is the bracket's standings length. -/
def renderedOverflow (elim : EliminationGroup) (td : TournamentData) :
    List (Nat × Standing) :=
  (sortedOverflow elim td).enum.map fun p => (elim.standings.length + p.1 + 1, p.2)

/-- A concrete bracket with 8 participants in its final standings. -/
def sampleElim : EliminationGroup :=
  ⟨"e1", "KO", 8, true, false, false,
   [mkStanding "k1" "K1" 1, mkStanding "k2" "K2" 2, mkStanding "k3" "K3" 3,
    mkStanding "k4" "K4" 4, mkStanding "k5" "K5" 5, mkStanding "k6" "K6" 6,
    mkStanding "k7" "K7" 7, mkStanding "k8" "K8" 8],
   [], [], none⟩

/-- A concrete snapshot whose first qualifying group holds two overflow teams
at upstream places 11 and 9. -/
def sampleKoTd : TournamentData :=
  ⟨"Turnier", [sampleElim],
   [⟨[mkStanding "q1" "Q1" 11, mkStanding "q2" "Q2" 9], none, none⟩]⟩

/-- C7: the rendered overflow numbers are consecutive from the bracket's
participant count + 1 (re-numbered by rank order, not by raw upstream
place); the listing is sorted ascending by qualifying place with a missing
place as 999; it holds exactly the qualifying teams absent from the
bracket's standings; and concretely, with participant count 8 and overflow
places 9 and 11, the rendered numbers are 9 and 10, place 9 first. -/
theorem overflow_numbering_spec (elim : EliminationGroup) (td : TournamentData) :
    ((renderedOverflow elim td).map Prod.fst =
      (List.range (overflowTeams elim td).length).map
        fun i => elim.standings.length + i + 1) ∧
    (sortedOverflow elim td).Sorted placeLe ∧
    (∀ t, t ∈ sortedOverflow elim td ↔ t ∈ overflowTeams elim td) ∧
    (renderedOverflow sampleElim sampleKoTd).map Prod.fst = [9, 10] ∧
    (renderedOverflow sampleElim sampleKoTd).map (fun p => p.2._id) = ["q2", "q1"] := by
  refine ⟨?_, ?_, ?_, by decide, by decide⟩
  · have hlen : (sortedOverflow elim td).length = (overflowTeams elim td).length :=
      (List.perm_insertionSort placeLe (overflowTeams elim td)).length_eq
    simp only [renderedOverflow, List.map_map]
    have hcomp : (Prod.fst ∘ fun p : Nat × Standing =>
        (elim.standings.length + p.1 + 1, p.2))
        = (fun i => elim.standings.length + i + 1) ∘ Prod.fst := rfl
    rw [hcomp, ← List.map_map, List.enum_map_fst, hlen]
  · exact List.sorted_insertionSort placeLe (overflowTeams elim td)
  · exact fun t => (List.perm_insertionSort placeLe (overflowTeams elim td)).mem_iff

end Kicker
